import Mathlib

/-!
Shallow embedding of the copperplasma rendering core
(`src/App.tsx`, `src/palettes.ts`).

Modelling conventions:
* JavaScript numbers are idealised as `ℚ`; `Math.floor` becomes `Int.floor`.
* Host transcendental functions (`Math.sin`, `Math.cos`, `Math.sqrt`,
  `Math.atan2`, `Math.pow`) and the constant `Math.PI` are deterministic
  host-supplied functions; they are modelled as explicit fields of a
  `JsMath` parameter, so every theorem quantifies over the host maths.
* A pixel buffer (`Uint8ClampedArray` of `width*height*4` bytes, RGBA
  row-major) is a function `ℕ → ℕ`; a store into a `Uint8ClampedArray`
  clamps to `[0,255]` and rounds half to even (`jsByte`).
* A JavaScript array access `a[i]` that can be out of range is modelled by
  `jsIndex`, returning `none` for the JavaScript `undefined`.
-/

namespace Copperplasma

/-- Host-environment maths functions (`Math.*`), supplied as parameters. -/
structure JsMath where
  sin : ℚ → ℚ
  cos : ℚ → ℚ
  sqrt : ℚ → ℚ
  atan2 : ℚ → ℚ → ℚ
  pow : ℚ → ℚ → ℚ
  PI : ℚ

/-- A concrete `JsMath` instance used to evaluate witnesses. -/
def trivMath : JsMath :=
  ⟨fun _ => 0, fun _ => 0, fun _ => 0, fun _ _ => 0, fun _ _ => 0, 0⟩

/-- `clamp` from `App.tsx`: `Math.min(Math.max(value, min), max)`. -/
def clamp (value lo hi : ℚ) : ℚ := min (max value lo) hi

/-- Integer version of `clamp`, for the palette-index computation. -/
def clampInt (value lo hi : ℤ) : ℤ := min (max value lo) hi

/-- `Math.round`: round half toward positive infinity. -/
def jsRound (q : ℚ) : ℤ := ⌊q + 1/2⌋

/-- Rounding half to even, as performed by a `Uint8ClampedArray` store. -/
def roundHalfEven (q : ℚ) : ℤ :=
  if q - ⌊q⌋ < 1/2 then ⌊q⌋
  else if q - ⌊q⌋ > 1/2 then ⌊q⌋ + 1
  else if 2 ∣ ⌊q⌋ then ⌊q⌋ else ⌊q⌋ + 1

/-- A store into a `Uint8ClampedArray`: clamp to `[0,255]`, round half to even. -/
def jsByte (q : ℚ) : ℕ := (roundHalfEven (clamp q 0 255)).toNat

/-- JavaScript array access `l[i]`: `none` models `undefined`. -/
def jsIndex {α : Type} (l : List α) (i : ℤ) : Option α :=
  if h : 0 ≤ i ∧ i.toNat < l.length then some (l.get ⟨i.toNat, h.2⟩) else none

/-- An RGB triple as produced by a palette generator (components are numbers). -/
abbrev RGB : Type := ℚ × ℚ × ℚ

/-- `ColorPalette` from `App.tsx`: a name and a list of RGB triples. -/
structure ColorPalette where
  name : String
  colors : List RGB

/-- `Math.floor` applied inside number expressions (result used as a number). -/
def mfloor (q : ℚ) : ℚ := (⌊q⌋ : ℚ)

/-- `createPalette` from `App.tsx`:
`Array.from({length: 64}, (_, i) => generator(i / 63))`. -/
def createPalette (name : String) (generator : ℚ → RGB) : ColorPalette :=
  ⟨name, (List.range 64).map fun (i : ℕ) => generator ((i : ℚ) / 63)⟩

/-- The 19 built-in palettes of `App.tsx` (`PALETTES`), parameterised by the
host maths functions used by some generators. -/
def PALETTES (M : JsMath) : List ColorPalette :=
  [ createPalette "Fire" (fun t =>
      if t < 0.5 then (255, mfloor (t * 2 * 255), 0)
      else (255, 255, mfloor ((t - 0.5) * 2 * 255)))
  , createPalette "Ocean" (fun t =>
      (mfloor (t * 100), mfloor (100 + t * 155), mfloor (150 + t * 105)))
  , createPalette "Rainbow" (fun t =>
      ( mfloor (127.5 * (1 + M.sin ((t * 360 + 0) * M.PI / 180)))
      , mfloor (127.5 * (1 + M.sin ((t * 360 + 120) * M.PI / 180)))
      , mfloor (127.5 * (1 + M.sin ((t * 360 + 240) * M.PI / 180)))))
  , createPalette "Copper" (fun t =>
      (mfloor (64 + t * 191), mfloor (32 + t * 127), mfloor (t * 64)))
  , createPalette "Plasma" (fun t =>
      ( mfloor (255 * M.pow (M.sin (t * M.PI)) 2)
      , mfloor (255 * M.pow (M.sin (t * M.PI + M.PI / 3)) 2)
      , mfloor (255 * M.pow (M.sin (t * M.PI + 2 * M.PI / 3)) 2)))
  , createPalette "Ocean Depths" (fun t =>
      (mfloor (t * 50), mfloor (50 + t * 150), mfloor (100 + t * 155)))
  , createPalette "Forest Glow" (fun t =>
      (mfloor (t * 100), mfloor (80 + t * 175), mfloor (20 + t * 120)))
  , createPalette "Purple Haze" (fun t =>
      (mfloor (100 + t * 155), mfloor (20 + t * 100), mfloor (150 + t * 105)))
  , createPalette "Neon Cyber" (fun t =>
      ( mfloor (255 * M.pow t 2)
      , mfloor (255 * M.sin (t * M.PI))
      , mfloor (255 * M.pow t 0.5)))
  , createPalette "Arctic Ice" (fun t =>
      (mfloor (200 + t * 55), mfloor (240 + t * 15), 255))
  , createPalette "Sunset Blaze" (fun t =>
      if t < 0.33 then
        (mfloor (255 * (0.5 + 0.5 * (t / 0.33))), mfloor (100 * (t / 0.33)), 0)
      else if t < 0.66 then
        (255, mfloor (100 + 155 * ((t - 0.33) / 0.33)), mfloor (50 * ((t - 0.33) / 0.33)))
      else
        (mfloor (255 - 100 * ((t - 0.66) / 0.34)), 255, mfloor (50 + 205 * ((t - 0.66) / 0.34))))
  , createPalette "Electric Blue" (fun t =>
      (mfloor (t * 100), mfloor (100 + t * 100), mfloor (200 + t * 55)))
  , createPalette "Toxic Waste" (fun t =>
      ( mfloor (150 + 105 * M.sin (t * M.PI * 3))
      , mfloor (200 + 55 * M.sin (t * M.PI * 2 + 1))
      , mfloor (50 + 100 * t)))
  , createPalette "Gold Rush" (fun t =>
      ( mfloor (255 * min 1 (0.3 + t * 1.2))
      , mfloor (215 * min 1 (0.2 + t * 1.1))
      , mfloor (50 * t)))
  , createPalette "Midnight Storm" (fun t =>
      (mfloor (20 + t * 80), mfloor (30 + t * 120), mfloor (80 + t * 175)))
  , createPalette "Retro Synthwave" (fun t =>
      if t < 0.5 then
        (mfloor (255 * (t * 2)), 0, mfloor (255 * (1 - t * 2)))
      else
        (255, mfloor (100 * ((t - 0.5) * 2)), mfloor (255 * (1 - (t - 0.5) * 2))))
  , createPalette "Emerald Dreams" (fun t =>
      (mfloor (20 + t * 100), mfloor (150 + t * 105), mfloor (50 + t * 150)))
  , createPalette "Binary Matrix" (fun t =>
      ( mfloor (mfloor (255 * M.pow t 0.7) * 0.1)
      , mfloor (255 * M.pow t 0.7)
      , mfloor (mfloor (255 * M.pow t 0.7) * 0.3)))
  , createPalette "Lava Flow" (fun t =>
      if t < 0.4 then (mfloor (100 + (t / 0.4) * 155), 0, 0)
      else if t < 0.7 then (255, mfloor (((t - 0.4) / 0.3) * 200), 0)
      else (255, mfloor (200 + ((t - 0.7) / 0.3) * 55), mfloor (((t - 0.7) / 0.3) * 100)))
  ]

/-- `currentPalette` from `App.tsx`:
`PALETTES[clamp(paletteIndex, 0, PALETTES.length - 1)].colors`.
The clamped index is always in range, so the `getD` default is unreachable. -/
def currentPalette (M : JsMath) (paletteIndex : ℤ) : List RGB :=
  ((PALETTES M).getD
    (clampInt paletteIndex 0 ((PALETTES M).length - 1)).toNat ⟨"", []⟩).colors

theorem PALETTES_length (M : JsMath) : (PALETTES M).length = 19 := by
  simp [PALETTES]

theorem createPalette_colors_length (name : String) (g : ℚ → RGB) :
    (createPalette name g).colors.length = 64 := by
  rw [createPalette]
  rw [List.length_map, List.length_range]

theorem mem_PALETTES_colors_length (M : JsMath) :
    ∀ p ∈ PALETTES M, p.colors.length = 64 := by
  intro p hp
  simp only [PALETTES, List.mem_cons, List.not_mem_nil, or_false] at hp
  rcases hp with rfl | rfl | rfl | rfl | rfl | rfl | rfl | rfl | rfl | rfl | rfl
    | rfl | rfl | rfl | rfl | rfl | rfl | rfl | rfl
  all_goals exact createPalette_colors_length _ _

/-- The pre-computed amplitude bound of `renderPlasma` (`App.tsx` lines
293-296): `maxValue = 4`, `+1` when `complexity > 0.3`, `+0.6` when
`complexity > 0.6`, `+0.4` when `complexity > 0.8`. -/
def plasmaMaxValue (complexity : ℚ) : ℚ :=
  4 + (if complexity > 0.3 then 1 else 0)
    + (if complexity > 0.6 then 0.6 else 0)
    + (if complexity > 0.8 then 0.4 else 0)

/-- The sine-term sum of `renderPlasma` (`App.tsx` lines 308-330) at
normalised coordinates `(nx, ny)`. -/
def plasmaSum (M : JsMath) (xFreq yFreq complexity time nx ny : ℚ) : ℚ :=
  M.sin (nx * xFreq + time)
  + M.sin (ny * yFreq + time)
  + M.sin ((nx + ny) * (xFreq + yFreq) * 0.25 + time)
  + M.sin (M.sqrt (nx * nx + ny * ny) * (xFreq + yFreq) * 0.5 + time)
  + (if complexity > 0.3 then
       M.sin (nx * xFreq * 2 + time * 1.3) * 0.5
       + M.sin (ny * yFreq * 2 + time * 0.7) * 0.5
     else 0)
  + (if complexity > 0.6 then
       M.sin ((nx - ny) * xFreq * 0.3 + time * 2) * 0.3
       + M.sin (M.sqrt ((nx - 0.5) * (nx - 0.5) + (ny - 0.5) * (ny - 0.5))
                  * yFreq * 3 + time) * 0.3
     else 0)
  + (if complexity > 0.8 then
       M.sin (nx * xFreq * 0.5 + ny * yFreq * 1.5 + time * 0.8) * 0.2
       + M.sin ((nx * nx + ny * ny) * (xFreq + yFreq) + time * 1.5) * 0.2
     else 0)

/-- The normalised plasma value (`App.tsx` lines 332-334):
`plasma = (plasma + maxValue) * normFactor` with `normFactor = 1/(maxValue*2)`,
then `clamp(plasma, 0, 1)`. -/
def plasmaNormalized (M : JsMath) (xFreq yFreq complexity time nx ny : ℚ) : ℚ :=
  clamp ((plasmaSum M xFreq yFreq complexity time nx ny + plasmaMaxValue complexity)
          * (1 / (plasmaMaxValue complexity * 2))) 0 1

/-- One pixel of `renderPlasma` (`App.tsx` lines 285-348).  The colour index
`Math.floor(plasma * 63)` lies in `[0, 63]` because the normalised value is
clamped to `[0, 1]`, so the `getD` default is unreachable. -/
def renderPlasmaPixel (M : JsMath) (paletteIndex : ℤ)
    (xFreq yFreq complexity time : ℚ) (w h x y : ℕ) : RGB :=
  let nx : ℚ := (x : ℚ) * (1 / (w : ℚ))
  let ny : ℚ := (y : ℚ) * (1 / (h : ℚ))
  let v := plasmaNormalized M xFreq yFreq complexity time nx ny
  (currentPalette M paletteIndex).getD (⌊v * 63⌋).toNat (0, 0, 0)

/-- The full `renderPlasma` frame: RGBA bytes in row-major order, written into
a freshly zeroed `ImageData` buffer (indices past the buffer stay 0). -/
def renderPlasmaFrame (M : JsMath) (paletteIndex : ℤ)
    (xFreq yFreq complexity time : ℚ) (w h : ℕ) : ℕ → ℕ := fun idx =>
  if idx < 4 * w * h then
    let c := idx % 4
    let p := idx / 4
    let rgb := renderPlasmaPixel M paletteIndex xFreq yFreq complexity time w h
                 (p % w) (p / w)
    if c = 0 then jsByte rgb.1
    else if c = 1 then jsByte rgb.2.1
    else if c = 2 then jsByte rgb.2.2
    else 255
  else 0

/-- One pixel of `renderTunnel` (`App.tsx` lines 351-383).  The palette is
fetched as `PALETTES[paletteIndex].colors` with no clamping, and the colour
as `palette[colorIndex]`; both accesses are modelled by `jsIndex`, so the
result is `none` exactly when the JavaScript code would read `undefined`
(and crash destructuring `[r, g, b]`). -/
def renderTunnelPixel (M : JsMath) (paletteIndex : ℤ)
    (tunnelDepth tunnelSpeed time : ℚ) (w h x y : ℕ) : Option RGB :=
  (jsIndex (PALETTES M) paletteIndex).bind fun palette =>
    let centerX : ℚ := (w : ℚ) * 0.5
    let centerY : ℚ := (h : ℚ) * 0.5
    let dx : ℚ := (x : ℚ) - centerX
    let dy : ℚ := (y : ℚ) - centerY
    let distance := M.sqrt (dx * dx + dy * dy)
    let angle := M.atan2 dy dx
    let depth := tunnelDepth / (distance + 0.1) + time * tunnelSpeed
    let textureX := (angle / M.PI + 1) * 32
    let textureY := depth * 16
    let tunnelValue := (M.sin textureX + M.sin textureY + 2) * 0.25
    jsIndex palette.colors ⌊tunnelValue * 63⌋

/-- The 3x3 box sum divided by 9, read from the snapshot `tempData` of the
buffer (`App.tsx` lines 706-718), for channel `c` of interior pixel `(x, y)`. -/
def blur3 (buf : ℕ → ℕ) (w x y c : ℕ) : ℚ :=
  ((buf (((y - 1) * w + (x - 1)) * 4 + c) + buf (((y - 1) * w + x) * 4 + c)
    + buf (((y - 1) * w + (x + 1)) * 4 + c)
    + buf ((y * w + (x - 1)) * 4 + c) + buf ((y * w + x) * 4 + c)
    + buf ((y * w + (x + 1)) * 4 + c)
    + buf (((y + 1) * w + (x - 1)) * 4 + c) + buf (((y + 1) * w + x) * 4 + c)
    + buf (((y + 1) * w + (x + 1)) * 4 + c) : ℕ) : ℚ) / 9

/-- `applyBloom` (`App.tsx` lines 697-725), pointwise.  The loops cover
`y ∈ [1, height-2]`, `x ∈ [1, width-2]` and write only channels 0-2 of
`(y*width+x)*4`; every other byte keeps its value.  Each write is
`Math.min(255, data[i] + blurred * intensity)` stored into the clamped
array. -/
def applyBloom (bloomIntensity : ℚ) (w h : ℕ) (buf : ℕ → ℕ) : ℕ → ℕ :=
  if bloomIntensity ≤ 0 then buf
  else fun idx =>
    let c := idx % 4
    let p := idx / 4
    let x := p % w
    let y := p / w
    if c ≤ 2 ∧ 1 ≤ x ∧ x + 1 < w ∧ 1 ≤ y ∧ y + 1 < h then
      jsByte (min 255 ((buf idx : ℚ) + blur3 buf w x y c * bloomIntensity))
    else buf idx

/-- `applyChromaticAberration` (`App.tsx` lines 727-751), pointwise.
`offset = Math.floor(chromaticAberration * width)`; the red channel is read
from `Math.max(0, x - offset)`, green is unshifted, blue is read from
`Math.min(width - 1, x + offset)`; all reads come from the snapshot
`tempData`. -/
def applyChromaticAberration (chromaticAberration : ℚ) (w h : ℕ)
    (buf : ℕ → ℕ) : ℕ → ℕ :=
  if chromaticAberration ≤ 0 then buf
  else fun idx =>
    if idx < 4 * w * h then
      let c := idx % 4
      let p := idx / 4
      let x := p % w
      let y := p / w
      let offset : ℤ := ⌊chromaticAberration * (w : ℚ)⌋
      if c = 0 then buf ((y * w + (max 0 ((x : ℤ) - offset)).toNat) * 4)
      else if c = 1 then buf idx
      else if c = 2 then
        buf ((y * w + (min ((w : ℤ) - 1) ((x : ℤ) + offset)).toNat) * 4 + 2)
      else buf idx
    else buf idx

/-- Modelled from the spec (§4.3): the same chromatic-aberration pass but with
`offset = round(intensity * width)`, as the spec's words state.  Used only to
compare the spec's formula against the source's `Math.floor` version. -/
def specChromaticAberration (chromaticAberration : ℚ) (w h : ℕ)
    (buf : ℕ → ℕ) : ℕ → ℕ :=
  if chromaticAberration ≤ 0 then buf
  else fun idx =>
    if idx < 4 * w * h then
      let c := idx % 4
      let p := idx / 4
      let x := p % w
      let y := p / w
      let offset : ℤ := jsRound (chromaticAberration * (w : ℚ))
      if c = 0 then buf ((y * w + (max 0 ((x : ℤ) - offset)).toNat) * 4)
      else if c = 1 then buf idx
      else if c = 2 then
        buf ((y * w + (min ((w : ℤ) - 1) ((x : ℤ) + offset)).toNat) * 4 + 2)
      else buf idx
    else buf idx

/-- `SurfaceWaveMode` from `App.tsx`. -/
inductive WaveMode
  | none
  | gentle
  | moderate
  | intense
  | storm
deriving DecidableEq

/-- The mode-dependent multipliers of the `switch` in `applySurfaceWave`
(`App.tsx` lines 762-783): `(amplitude, frequency, waveSpeed)` factors.
The `none` case is unreachable (guarded by the early return) and, like the
switch's default, leaves the multipliers at 1. -/
def waveParams : WaveMode → ℚ × ℚ × ℚ
  | .gentle => (0.5, 0.7, 0.8)
  | .moderate => (1.0, 1.0, 1.0)
  | .intense => (1.8, 1.4, 1.3)
  | .storm => (2.5, 2.0, 1.6)
  | .none => (1, 1, 1)

/-- `applySurfaceWave` (`App.tsx` lines 754-820), pointwise.  With mode
`none` the pass returns immediately; otherwise every destination pixel is
remapped to a clamped, rounded source coordinate, all four channels read from
the snapshot `tempData`. -/
def applySurfaceWave (M : JsMath) (mode : WaveMode)
    (waveAmplitude waveFrequency waveSpeed time : ℚ) (w h : ℕ)
    (buf : ℕ → ℕ) : ℕ → ℕ :=
  match mode with
  | .none => buf
  | m => fun idx =>
    if idx < 4 * w * h then
      let mults := waveParams m
      let amplitude := waveAmplitude * mults.1
      let frequency := waveFrequency * mults.2.1
      let waveSpeedMult := waveSpeed * mults.2.2
      let c := idx % 4
      let p := idx / 4
      let x := p % w
      let y := p / w
      let waveX := M.sin ((y : ℚ) * frequency * 0.01 + time * waveSpeedMult)
                     * amplitude * (w : ℚ)
      let waveY := M.sin ((x : ℚ) * frequency * 0.008 + time * waveSpeedMult * 0.7)
                     * amplitude * (h : ℚ)
      let centerX : ℚ := (w : ℚ) * 0.5
      let centerY : ℚ := (h : ℚ) * 0.5
      let distance := M.sqrt (((x : ℚ) - centerX) * ((x : ℚ) - centerX)
                               + ((y : ℚ) - centerY) * ((y : ℚ) - centerY))
      let ripple := M.sin (distance * frequency * 0.02 - time * waveSpeedMult * 2)
                      * amplitude * 0.3
      let sourceX := (min (max (jsRound ((x : ℚ) + waveX + ripple * (w : ℚ))) 0)
                       ((w : ℤ) - 1)).toNat
      let sourceY := (min (max (jsRound ((y : ℚ) + waveY + ripple * (h : ℚ))) 0)
                       ((h : ℤ) - 1)).toNat
      buf ((sourceY * w + sourceX) * 4 + c)
    else buf idx

/-- The state held by the animation loop (`App.tsx` lines 980-1008): the
simulation `time` and `lastTime`, the wall-clock instant of the last advance. -/
structure AnimState where
  time : ℚ
  lastTime : ℚ
deriving DecidableEq

/-- One invocation of `animate(currentTime)` (`App.tsx` lines 984-1008),
restricted to the time-advancing part: if at least 16.67 ms elapsed since the
last advance, `time` grows by `0.1 * clamp(speed, 0.1, 3.0) * (deltaTime/50)`
and `lastTime` is reset; otherwise the state is unchanged. -/
def animate (speed : ℚ) (s : AnimState) (currentTime : ℚ) : AnimState :=
  let deltaTime := currentTime - s.lastTime
  if deltaTime ≥ 16.67 then
    ⟨s.time + 0.1 * clamp speed 0.1 3.0 * (deltaTime / 50), currentTime⟩
  else s

/-- A whole sequence of scheduler callbacks at the given wall-clock instants. -/
def animateRun (speed : ℚ) (s : AnimState) (ticks : List ℚ) : AnimState :=
  ticks.foldl (animate speed) s

/-- The escape-time loop of `renderFractals` (`App.tsx` lines 539-544),
with the remaining iteration budget as fuel: while `zx*zx + zy*zy < 4` and
iterations remain, step `z ← z² + c` and count one iteration. -/
def mandelGo (cx cy : ℚ) : ℚ → ℚ → ℕ → ℕ
  | _, _, 0 => 0
  | zx, zy, fuel + 1 =>
    if zx * zx + zy * zy < 4 then
      mandelGo cx cy (zx * zx - zy * zy + cx) (2 * zx * zy + cy) fuel + 1
    else 0

/-- One pixel of `renderFractals` (`App.tsx` lines 523-556).  The palette is
fetched unclamped (`PALETTES[paletteIndex].colors`), the colour index is
`Math.floor((iterations / fractalIterations) * 63)`. -/
def renderFractalPixel (M : JsMath) (paletteIndex : ℤ) (time : ℚ)
    (fractalIterations : ℕ) (w h x y : ℕ) : Option RGB :=
  (jsIndex (PALETTES M) paletteIndex).bind fun palette =>
    let zoom := 0.5 + M.sin (time * 0.1) * 0.3
    let offsetX := M.sin (time * 0.05) * 0.5
    let offsetY := M.cos (time * 0.07) * 0.5
    let cx := ((x : ℚ) / (w : ℚ) - 0.5) * zoom + offsetX
    let cy := ((y : ℚ) / (h : ℚ) - 0.5) * zoom + offsetY
    let iterations := mandelGo cx cy 0 0 fractalIterations
    let fractalValue : ℚ := (iterations : ℚ) / (fractalIterations : ℚ)
    jsIndex palette.colors ⌊fractalValue * 63⌋

/-- `rgbToHex` (`palettes.ts` line 183) at the level of the packed number:
`(1 << 24) + (r << 16) + (g << 8) + b`.  For 8-bit channels the 32-bit shifts
cannot wrap, so they are plain products. -/
def rgbToHexNum (r g b : ℕ) : ℕ := 2 ^ 24 + r * 2 ^ 16 + g * 2 ^ 8 + b

/-- `rgbToHex` (`palettes.ts` lines 183-185) as the sequence of hexadecimal
digit values after the `#`: `toString(16)` produces the base-16 digits most
significant first, and `slice(1)` drops the leading `1`. -/
def rgbToHex (r g b : ℕ) : List ℕ :=
  ((Nat.digits 16 (rgbToHexNum r g b)).reverse).drop 1

/-- `hexToRgb` (`palettes.ts` lines 176-181) on the digit values after an
optional `#`: the regex accepts exactly six hexadecimal characters, grouped
in pairs, each pair parsed with `parseInt(_, 16)`; any other input yields
`[0, 0, 0]`. -/
def hexToRgb (ds : List ℕ) : ℕ × ℕ × ℕ :=
  match ds with
  | [d1, d2, d3, d4, d5, d6] =>
    if d1 < 16 ∧ d2 < 16 ∧ d3 < 16 ∧ d4 < 16 ∧ d5 < 16 ∧ d6 < 16 then
      (d1 * 16 + d2, d3 * 16 + d4, d5 * 16 + d6)
    else (0, 0, 0)
  | _ => (0, 0, 0)

/-- Modelled from the spec (§4.1): componentwise clamping of an RGB triple to
`[0, 255]`, as the spec's words require before storage.  Used only to compare
the spec's palette contract against the source's `createPalette`. -/
def specClampRGB (c : RGB) : RGB :=
  (clamp c.1 0 255, clamp c.2.1 0 255, clamp c.2.2 0 255)

theorem createPalette_getD (nm : String) (f : ℚ → RGB) (i : ℕ) (h : i < 64) :
    (createPalette nm f).colors.getD i (0, 0, 0) = f ((i : ℚ) / 63) := by
  rw [createPalette]
  rw [List.getD_eq_getElem _ _ (by simpa using h)]
  simp

/-- C1: for a fixed effect kind, parameter set, palette index and time, the
embedded kernels are pure functions of exactly those inputs (together with
the host maths `M`), so rendering a frame twice produces byte-identical
buffers. -/
theorem render_deterministic (M : JsMath) (paletteIndex : ℤ)
    (xFreq yFreq complexity time tunnelDepth tunnelSpeed : ℚ) (w h x y : ℕ) :
    renderPlasmaFrame M paletteIndex xFreq yFreq complexity time w h
      = renderPlasmaFrame M paletteIndex xFreq yFreq complexity time w h
    ∧ renderTunnelPixel M paletteIndex tunnelDepth tunnelSpeed time w h x y
      = renderTunnelPixel M paletteIndex tunnelDepth tunnelSpeed time w h x y :=
  ⟨rfl, rfl⟩

/-- C3 (amended): `createPalette` yields exactly 64 entries, with entry 0
equal to `generator(0)` and entry 63 equal to `generator(1)`; entries are
stored exactly as the generator returns them, with no clamping. -/
theorem createPalette_entries (nm : String) (f : ℚ → RGB) :
    (createPalette nm f).colors.length = 64
    ∧ (createPalette nm f).colors.getD 0 (0, 0, 0) = f 0
    ∧ (createPalette nm f).colors.getD 63 (0, 0, 0) = f 1 := by
  refine ⟨createPalette_colors_length nm f, ?_, ?_⟩
  · rw [createPalette_getD nm f 0 (by norm_num)]
    norm_num
  · rw [createPalette_getD nm f 63 (by norm_num)]
    norm_num

/-- C3 (counterexample): a generator returning the out-of-range component 300
is stored as-is by `createPalette`; entry 0 is `(300, 0, 0)`, not the clamped
`(255, 0, 0)` the claim requires. -/
theorem createPalette_clamp_cex :
    (createPalette "test" (fun _ => ((300 : ℚ), 0, 0))).colors.getD 0 (0, 0, 0)
        = ((300 : ℚ), 0, 0)
    ∧ specClampRGB ((300 : ℚ), 0, 0) = ((255 : ℚ), 0, 0)
    ∧ (createPalette "test" (fun _ => ((300 : ℚ), 0, 0))).colors.getD 0 (0, 0, 0)
        ≠ specClampRGB ((300 : ℚ), 0, 0) := by
  have h0 := createPalette_getD "test" (fun _ => ((300 : ℚ), 0, 0)) 0 (by norm_num)
  refine ⟨h0, ?_, ?_⟩
  · simp [specClampRGB, clamp]
    norm_num
  · rw [h0]
    simp [specClampRGB, clamp]
    norm_num

/-- C4: each disabled post-processing pass is the identity on the pixel
buffer: bloom at intensity 0, chromatic aberration when the computed column
offset is 0 (in particular at intensity 0), and surface wave in mode `none`. -/
theorem postprocess_noop (M : JsMath)
    (waveAmplitude waveFrequency waveSpeed time ca : ℚ) (w h : ℕ)
    (buf : ℕ → ℕ) :
    applyBloom 0 w h buf = buf
    ∧ ((ca ≤ 0 ∨ ⌊ca * (w : ℚ)⌋ = 0) →
        ∀ idx, applyChromaticAberration ca w h buf idx = buf idx)
    ∧ applySurfaceWave M WaveMode.none waveAmplitude waveFrequency waveSpeed
        time w h buf = buf := by
  refine ⟨?_, ?_, rfl⟩
  · rw [applyBloom, if_pos le_rfl]
  · intro hca idx
    by_cases hle : ca ≤ 0
    · rw [applyChromaticAberration, if_pos hle]
    · have hofs : ⌊ca * (w : ℚ)⌋ = 0 := hca.resolve_left hle
      rw [applyChromaticAberration, if_neg hle]
      by_cases hidx : idx < 4 * w * h
      · rw [if_pos hidx]
        have hw : 0 < w := by
          by_contra hw0
          interval_cases w
          omega
        have hx : idx / 4 % w < w := Nat.mod_lt _ hw
        have hsplit : idx / 4 / w * w + idx / 4 % w = idx / 4 := by
          rw [mul_comm]
          exact Nat.div_add_mod _ _
        by_cases h0 : idx % 4 = 0
        · rw [if_pos h0]
          rw [hofs]
          have hmax : (max (0 : ℤ) (((idx / 4 % w : ℕ) : ℤ) - 0)).toNat
              = idx / 4 % w := by
            omega
          rw [hmax, hsplit]
          congr 1
          omega
        · rw [if_neg h0]
          by_cases h1 : idx % 4 = 1
          · rw [if_pos h1]
          · rw [if_neg h1]
            by_cases h2 : idx % 4 = 2
            · rw [if_pos h2]
              rw [hofs]
              have hmin : (min ((w : ℤ) - 1) (((idx / 4 % w : ℕ) : ℤ) + 0)).toNat
                  = idx / 4 % w := by
                omega
              rw [hmin, hsplit]
              congr 1
              omega
            · rw [if_neg h2]
      · rw [if_neg hidx]

/-- Witness for `postprocess_noop` at concrete inputs: intensity `1/16` over a
width-2 buffer gives column offset `⌊1/8⌋ = 0`. -/
theorem postprocess_noop_witness :
    applyBloom 0 2 2 (fun i => i) = (fun i => i)
    ∧ applyChromaticAberration (1/16) 2 2 (fun i => i) 5 = (fun i => i) 5 := by
  have h := postprocess_noop trivMath 0 0 0 0 (1/16) 2 2 (fun i => i)
  refine ⟨h.1, h.2.1 (Or.inr ?_) 5⟩
  norm_num

theorem clamp_speed_lower (speed : ℚ) : (0.1 : ℚ) ≤ clamp speed 0.1 3.0 := by
  rw [clamp]
  exact le_min (le_max_right _ _) (by norm_num)

theorem animate_time_le (speed : ℚ) (s : AnimState) (ct : ℚ) :
    s.time ≤ (animate speed s ct).time := by
  rw [animate]
  split
  · rename_i hdt
    have hpos : (0 : ℚ) ≤ 0.1 * clamp speed 0.1 3.0 * ((ct - s.lastTime) / 50) := by
      have h1 := clamp_speed_lower speed
      have h2 : (0 : ℚ) ≤ (ct - s.lastTime) / 50 := by
        apply div_nonneg _ (by norm_num)
        linarith
      have h3 : (0 : ℚ) ≤ 0.1 * clamp speed 0.1 3.0 := by nlinarith
      exact mul_nonneg h3 h2
    simp only []
    linarith
  · exact le_rfl

theorem animateRun_time_le (speed : ℚ) (s : AnimState) (ticks : List ℚ) :
    s.time ≤ (animateRun speed s ticks).time := by
  induction ticks generalizing s with
  | nil => exact le_rfl
  | cons t ts ih =>
    rw [animateRun, List.foldl_cons]
    exact le_trans (animate_time_le speed s t) (ih (animate speed s t))

/-- C7: the animation clock never decreases across any sequence of scheduler
callbacks; a callback leaves `time` unchanged when less than 16.67 ms of wall
clock elapsed since the last advance, and otherwise strictly advances it by
`0.1 * clamp(speed, 0.1, 3.0) * (deltaTime / 50)`. -/
theorem animation_clock (speed : ℚ) (s : AnimState) (ct : ℚ) (ticks : List ℚ) :
    (ct - s.lastTime < 16.67 → animate speed s ct = s)
    ∧ (16.67 ≤ ct - s.lastTime →
        (animate speed s ct).time
            = s.time + 0.1 * clamp speed 0.1 3.0 * ((ct - s.lastTime) / 50)
        ∧ s.time < (animate speed s ct).time)
    ∧ s.time ≤ (animateRun speed s ticks).time := by
  refine ⟨?_, ?_, animateRun_time_le speed s ticks⟩
  · intro hlt
    rw [animate, if_neg (by exact not_le.mpr hlt)]
  · intro hge
    rw [animate, if_pos (by exact hge)]
    refine ⟨rfl, ?_⟩
    have h1 := clamp_speed_lower speed
    have h2 : (0 : ℚ) < (ct - s.lastTime) / 50 := by
      apply div_pos _ (by norm_num)
      linarith
    have h3 : (0 : ℚ) < 0.1 * clamp speed 0.1 3.0 := by nlinarith
    have h4 : (0 : ℚ) < 0.1 * clamp speed 0.1 3.0 * ((ct - s.lastTime) / 50) :=
      mul_pos h3 h2
    show s.time < s.time + _
    linarith

/-- Witness for `animation_clock`: a callback 20 ms after the last advance
advances the clock, and a run over an empty tick list never decreases it. -/
theorem animation_clock_witness :
    (animate 1 ⟨0, 0⟩ 20).time = 0 + 0.1 * clamp 1 0.1 3.0 * ((20 - 0) / 50)
    ∧ (0 : ℚ) < (animate 1 ⟨0, 0⟩ 20).time
    ∧ (0 : ℚ) ≤ (animateRun 1 ⟨0, 0⟩ []).time := by
  have h := animation_clock 1 ⟨0, 0⟩ 20 []
  have h2 := h.2.1 (by norm_num)
  exact ⟨h2.1, h2.2, h.2.2⟩

theorem mandelGo_le (cx cy : ℚ) :
    ∀ (fuel : ℕ) (zx zy : ℚ), mandelGo cx cy zx zy fuel ≤ fuel := by
  intro fuel
  induction fuel with
  | zero => intro zx zy; exact le_rfl
  | succ n ih =>
    intro zx zy
    rw [mandelGo]
    split
    · exact Nat.succ_le_succ (ih _ _)
    · exact Nat.zero_le _

/-- C9: the escape-time loop of the fractal effect performs at most
`fractalIterations` iterations (so it terminates), and the colour index of a
pixel is `⌊(iterations / cap) * 63⌋` for an iteration count bounded by the
cap. -/
theorem fractal_iteration_bound (M : JsMath) (paletteIndex : ℤ) (time : ℚ)
    (cap w h x y : ℕ) (zx zy cx cy : ℚ) (hcap : 0 < cap) :
    mandelGo cx cy zx zy cap ≤ cap
    ∧ ∃ i : ℕ, i ≤ cap ∧
        renderFractalPixel M paletteIndex time cap w h x y
          = (jsIndex (PALETTES M) paletteIndex).bind fun palette =>
              jsIndex palette.colors ⌊((i : ℚ) / (cap : ℚ)) * 63⌋ := by
  refine ⟨mandelGo_le cx cy cap zx zy, ?_⟩
  refine ⟨mandelGo
      (((x : ℚ) / (w : ℚ) - 0.5) * (0.5 + M.sin (time * 0.1) * 0.3)
        + M.sin (time * 0.05) * 0.5)
      (((y : ℚ) / (h : ℚ) - 0.5) * (0.5 + M.sin (time * 0.1) * 0.3)
        + M.cos (time * 0.07) * 0.5) 0 0 cap, mandelGo_le _ _ cap 0 0, rfl⟩

/-- Witness for `fractal_iteration_bound` at a concrete positive cap. -/
theorem fractal_iteration_bound_witness :
    0 < 2 ∧ mandelGo 0 0 0 0 2 ≤ 2 :=
  ⟨by decide,
   (fractal_iteration_bound trivMath 0 0 2 4 4 1 1 0 0 0 0 (by decide)).1⟩

theorem digits16_step (lo hi : ℕ) (hlo : lo < 16) (hhi : 0 < hi) :
    Nat.digits 16 (16 * hi + lo) = lo :: Nat.digits 16 hi := by
  rw [Nat.digits_def' (by norm_num : 1 < 16) (by omega)]
  have h1 : (16 * hi + lo) % 16 = lo := by omega
  have h2 : (16 * hi + lo) / 16 = hi := by omega
  rw [h1, h2]

/-- C8: encoding an 8-bit RGB triple to the packed hexadecimal representation
and decoding it back is the identity, for every 8-bit channel combination. -/
theorem hex_roundtrip (r g b : ℕ) (hr : r < 256) (hg : g < 256)
    (hb : b < 256) : hexToRgb (rgbToHex r g b) = (r, g, b) := by
  have e : rgbToHexNum r g b
      = 16 * (16 * (16 * (16 * (16 * (16 * 1 + r / 16) + r % 16) + g / 16)
          + g % 16) + b / 16) + b % 16 := by
    rw [rgbToHexNum]
    omega
  have key : Nat.digits 16 (rgbToHexNum r g b)
      = [b % 16, b / 16, g % 16, g / 16, r % 16, r / 16, 1] := by
    rw [e]
    rw [digits16_step _ _ (by omega) (by omega)]
    rw [digits16_step _ _ (by omega) (by omega)]
    rw [digits16_step _ _ (by omega) (by omega)]
    rw [digits16_step _ _ (by omega) (by omega)]
    rw [digits16_step _ _ (by omega) (by omega)]
    rw [digits16_step _ _ (by omega) (by omega)]
    rw [Nat.digits_def' (by norm_num : 1 < 16) Nat.one_pos]
    norm_num
  rw [rgbToHex, key]
  show hexToRgb [r / 16, r % 16, g / 16, g % 16, b / 16, b % 16] = (r, g, b)
  rw [hexToRgb]
  rw [if_pos (by omega)]
  simp only [Prod.mk.injEq]
  omega

/-- Witness for `hex_roundtrip` at a concrete 8-bit triple. -/
theorem hex_roundtrip_witness :
    3 < 256 ∧ hexToRgb (rgbToHex 3 200 255) = (3, 200, 255) :=
  ⟨by decide, hex_roundtrip 3 200 255 (by decide) (by decide) (by decide)⟩

theorem pixel_index_lt (w h x y c : ℕ) (hx : x < w) (hy : y < h) (hc : c < 4) :
    (y * w + x) * 4 + c < 4 * w * h := by
  have h1 : y * w + x < h * w := by
    calc y * w + x < y * w + w := by omega
    _ = (y + 1) * w := by ring
    _ ≤ h * w := Nat.mul_le_mul_right w (by omega)
  calc (y * w + x) * 4 + c < (y * w + x) * 4 + 4 := by omega
  _ = (y * w + x + 1) * 4 := by ring
  _ ≤ h * w * 4 := Nat.mul_le_mul_right 4 (by omega)
  _ = 4 * w * h := by ring

theorem pixel_coords (w x y c : ℕ) (hx : x < w) (hc : c < 4) :
    ((y * w + x) * 4 + c) % 4 = c
    ∧ ((y * w + x) * 4 + c) / 4 % w = x
    ∧ ((y * w + x) * 4 + c) / 4 / w = y := by
  have hq : ((y * w + x) * 4 + c) / 4 = y * w + x := by omega
  have hm : ((y * w + x) * 4 + c) % 4 = c := by omega
  refine ⟨hm, ?_, ?_⟩
  · rw [hq, mul_comm y w, Nat.mul_add_mod]
    exact Nat.mod_eq_of_lt hx
  · rw [hq, mul_comm y w, Nat.mul_add_div (by omega)]
    rw [Nat.div_eq_of_lt hx]
    omega

/-- C10: for every positive bloom intensity, the bloom pass leaves every byte
of a border-ring pixel and the alpha byte of every pixel unchanged; only the
R, G, B channels of interior pixels are rewritten. -/
theorem bloom_frame_effect (bloomIntensity : ℚ) (w h : ℕ) (buf : ℕ → ℕ)
    (x y c : ℕ) (hI : 0 < bloomIntensity) (hx : x < w) (hy : y < h)
    (hc : c < 4) :
    ((x = 0 ∨ x + 1 = w ∨ y = 0 ∨ y + 1 = h) →
        applyBloom bloomIntensity w h buf ((y * w + x) * 4 + c)
          = buf ((y * w + x) * 4 + c))
    ∧ applyBloom bloomIntensity w h buf ((y * w + x) * 4 + 3)
        = buf ((y * w + x) * 4 + 3) := by
  obtain ⟨hm, hxw, hyw⟩ := pixel_coords w x y c hx hc
  obtain ⟨hm3, hxw3, hyw3⟩ := pixel_coords w x y 3 hx (by omega)
  constructor
  · intro hborder
    rw [applyBloom, if_neg (not_le.mpr hI)]
    simp only [hm, hxw, hyw]
    rw [if_neg]
    intro hcnd
    rcases hborder with h0 | h0 | h0 | h0 <;> omega
  · rw [applyBloom, if_neg (not_le.mpr hI)]
    simp only [hm3, hxw3, hyw3]
    rw [if_neg]
    intro hcnd
    omega

/-- Witness for `bloom_frame_effect`: a left-edge pixel of a 3x3 buffer is
untouched by a positive-intensity bloom pass. -/
theorem bloom_frame_effect_witness :
    applyBloom 1 3 3 (fun i => i) ((1 * 3 + 0) * 4 + 0)
        = (fun i => i) ((1 * 3 + 0) * 4 + 0)
    ∧ applyBloom 1 3 3 (fun i => i) ((1 * 3 + 0) * 4 + 3)
        = (fun i => i) ((1 * 3 + 0) * 4 + 3) := by
  have h := bloom_frame_effect 1 3 3 (fun i => i) 0 1 0 (by norm_num)
    (by norm_num) (by norm_num) (by norm_num)
  exact ⟨h.1 (Or.inl rfl), h.2⟩

/-- C5 (amended): for every positive aberration intensity, the pass reads the
red channel from source column `max(0, x - offset)`, leaves green unshifted,
reads blue from source column `min(width - 1, x + offset)`, and leaves alpha
unchanged, where `offset = Math.floor(intensity * width)` (the source uses
`floor`, not the spec's `round`) and sampling clamps to the buffer bounds. -/
theorem chromatic_aberration_amended (I : ℚ) (w h : ℕ) (buf : ℕ → ℕ)
    (x y : ℕ) (hI : 0 < I) (hx : x < w) (hy : y < h) :
    applyChromaticAberration I w h buf ((y * w + x) * 4)
        = buf ((y * w + (max 0 ((x : ℤ) - ⌊I * (w : ℚ)⌋)).toNat) * 4)
    ∧ applyChromaticAberration I w h buf ((y * w + x) * 4 + 1)
        = buf ((y * w + x) * 4 + 1)
    ∧ applyChromaticAberration I w h buf ((y * w + x) * 4 + 2)
        = buf ((y * w + (min ((w : ℤ) - 1) ((x : ℤ) + ⌊I * (w : ℚ)⌋)).toNat)
            * 4 + 2)
    ∧ applyChromaticAberration I w h buf ((y * w + x) * 4 + 3)
        = buf ((y * w + x) * 4 + 3) := by
  have hch : ∀ c : ℕ, c < 4 →
      applyChromaticAberration I w h buf ((y * w + x) * 4 + c)
        = if c = 0 then
            buf ((y * w + (max 0 ((x : ℤ) - ⌊I * (w : ℚ)⌋)).toNat) * 4)
          else if c = 1 then buf ((y * w + x) * 4 + c)
          else if c = 2 then
            buf ((y * w + (min ((w : ℤ) - 1) ((x : ℤ) + ⌊I * (w : ℚ)⌋)).toNat)
              * 4 + 2)
          else buf ((y * w + x) * 4 + c) := by
    intro c hc
    obtain ⟨hm, hxw, hyw⟩ := pixel_coords w x y c hx hc
    rw [applyChromaticAberration, if_neg (not_le.mpr hI)]
    rw [if_pos (pixel_index_lt w h x y c hx hy hc)]
    simp only [hm, hxw, hyw]
  have h0 := hch 0 (by omega)
  have h1 := hch 1 (by omega)
  have h2 := hch 2 (by omega)
  have h3 := hch 3 (by omega)
  norm_num at h0 h1 h2 h3
  exact ⟨h0, h1, h2, h3⟩

/-- Witness for `chromatic_aberration_amended` at a concrete buffer. -/
theorem chromatic_aberration_amended_witness :
    applyChromaticAberration (1/2) 2 1 (fun i => i) ((0 * 2 + 1) * 4)
        = (fun i => i) ((0 * 2 + (max 0 ((1 : ℤ) - ⌊(1/2 : ℚ) * ((2 : ℕ) : ℚ)⌋)).toNat) * 4)
    ∧ applyChromaticAberration (1/2) 2 1 (fun i => i) ((0 * 2 + 1) * 4 + 3)
        = (fun i => i) ((0 * 2 + 1) * 4 + 3) := by
  have h := chromatic_aberration_amended (1/2) 2 1 (fun i => i) 1 0
    (by norm_num) (by norm_num) (by norm_num)
  exact ⟨h.1, h.2.2.2⟩

/-- C5 (counterexample): with intensity `5/8` on a 4-pixel-wide buffer the
source computes `offset = ⌊2.5⌋ = 2` while the spec's formula gives
`round(2.5) = 3`; at the red byte of pixel `x = 3` the two passes read
different source columns and disagree. -/
theorem chromatic_offset_cex :
    applyChromaticAberration (5/8) 4 1 (fun idx => idx) 12
      ≠ specChromaticAberration (5/8) 4 1 (fun idx => idx) 12 := by
  have hL : applyChromaticAberration (5/8) 4 1 (fun idx => idx) 12 = 4 := by
    rw [applyChromaticAberration, if_neg (by norm_num)]
    norm_num
  have hR : specChromaticAberration (5/8) 4 1 (fun idx => idx) 12 = 0 := by
    rw [specChromaticAberration, if_neg (by norm_num)]
    norm_num [jsRound]
  rw [hL, hR]
  norm_num

/-- C2 (counterexample): the tunnel renderer fetches
`PALETTES[paletteIndex].colors` with no clamping; at the out-of-range index
19 the access yields `undefined` (modelled as `none`) instead of the output
of the nearest in-range index 18, which succeeds. -/
theorem tunnel_palette_unclamped_cex :
    renderTunnelPixel trivMath 19 5 1 0 4 4 1 2 = Option.none
    ∧ (renderTunnelPixel trivMath 18 5 1 0 4 4 1 2).isSome = true := by
  have hl := PALETTES_length trivMath
  constructor
  · rw [renderTunnelPixel]
    have h : jsIndex (PALETTES trivMath) 19 = Option.none := by
      rw [jsIndex]
      split
      · rename_i hcnd
        rw [hl] at hcnd
        omega
      · rfl
    rw [h]
    rfl
  · rw [renderTunnelPixel]
    have hcnd : (0 : ℤ) ≤ 18 ∧ (18 : ℤ).toNat < (PALETTES trivMath).length := by
      rw [hl]
      omega
    rw [jsIndex, dif_pos hcnd]
    rw [Option.some_bind]
    have hmem := List.get_mem (PALETTES trivMath) (18 : ℤ).toNat hcnd.2
    have hlen := mem_PALETTES_colors_length trivMath _ hmem
    have hfloor : ⌊((trivMath.sin ((trivMath.atan2 ((2 : ℕ) - (4 : ℕ) * 0.5)
      ((1 : ℕ) - (4 : ℕ) * 0.5) / trivMath.PI + 1) * 32)
      + trivMath.sin ((5 / (trivMath.sqrt (((1 : ℕ) - (4 : ℕ) * 0.5)
        * ((1 : ℕ) - (4 : ℕ) * 0.5) + ((2 : ℕ) - (4 : ℕ) * 0.5)
        * ((2 : ℕ) - (4 : ℕ) * 0.5)) + 0.1) + 0 * 1) * 16) + 2) * 0.25) * 63⌋
        = (31 : ℤ) := by
      norm_num [trivMath]
    rw [jsIndex]
    rw [dif_pos]
    · rfl
    · constructor
      · rw [hfloor]
        norm_num
      · rw [hfloor, hlen]
        norm_num

/-- C2 (amended): the plasma renderer clamps the palette index through
`currentPalette`, so every integer index, in range or not, produces the same
pixel as the nearest in-range index; the tunnel renderer does not clamp — it
reads the palette table directly and yields `undefined` (`none`) for every
out-of-range index. -/
theorem palette_clamping_amended (M : JsMath) (paletteIndex : ℤ)
    (xFreq yFreq complexity time tunnelDepth tunnelSpeed : ℚ) (w h x y : ℕ) :
    renderPlasmaPixel M paletteIndex xFreq yFreq complexity time w h x y
        = renderPlasmaPixel M (clampInt paletteIndex 0 18) xFreq yFreq
            complexity time w h x y
    ∧ ((paletteIndex < 0 ∨ 19 ≤ paletteIndex) →
        renderTunnelPixel M paletteIndex tunnelDepth tunnelSpeed time w h x y
          = Option.none) := by
  constructor
  · have hpal : currentPalette M (clampInt paletteIndex 0 18)
        = currentPalette M paletteIndex := by
      rw [currentPalette, currentPalette, PALETTES_length]
      have : clampInt (clampInt paletteIndex 0 18) 0 ((19 : ℕ) - 1)
          = clampInt paletteIndex 0 ((19 : ℕ) - 1) := by
        rw [clampInt, clampInt, clampInt]
        omega
      rw [this]
    rw [renderPlasmaPixel, renderPlasmaPixel, hpal]
  · intro hout
    rw [renderTunnelPixel]
    have h : jsIndex (PALETTES M) paletteIndex = Option.none := by
      rw [jsIndex]
      split
      · rename_i hcnd
        rw [PALETTES_length] at hcnd
        rcases hout with h | h
        · exact absurd hcnd.1 (by omega)
        · exact absurd hcnd.2 (by omega)
      · rfl
    rw [h]
    rfl

/-- Witness for `palette_clamping_amended`: the out-of-range index 25 renders
the same plasma pixel as the clamped index, and the tunnel renderer fails at
index `-1`. -/
theorem palette_clamping_amended_witness :
    renderPlasmaPixel trivMath 25 8 6 0.5 0 2 2 0 0
        = renderPlasmaPixel trivMath (clampInt 25 0 18) 8 6 0.5 0 2 2 0 0
    ∧ renderTunnelPixel trivMath (-1) 5 1 0 2 2 0 0 = Option.none := by
  have h1 := palette_clamping_amended trivMath 25 8 6 0.5 0 5 1 2 2 0 0
  have h2 := palette_clamping_amended trivMath (-1) 8 6 0.5 0 5 1 2 2 0 0
  exact ⟨h1.1, h2.2 (Or.inl (by norm_num))⟩

theorem twoStepChain (x0 x1 x2 x3 y0 y1 y2 y3 : Bool)
    (hx1 : x0 = true → x1 = true) (hx2 : x1 = true → x2 = true)
    (hx3 : x2 = true → x3 = true) (hy1 : y0 = true → y1 = true)
    (hy2 : y1 = true → y2 = true) (hy3 : y2 = true → y3 = true) :
    (x0 = x1 ∧ y0 = y1) ∨ (x1 = x2 ∧ y1 = y2) ∨ (x2 = x3 ∧ y2 = y3) := by
  cases x0 <;> cases x1 <;> cases x2 <;> cases x3 <;> cases y0 <;> cases y1
    <;> cases y2 <;> cases y3 <;> simp_all

/-- C6 (counterexample): the pre-computed amplitude bound of `renderPlasma`
takes the four distinct values 4, 5, 5.6 and 6 as the complexity parameter
grows, which is impossible for a kernel whose complexity dependence passes
through only two thresholds: the source has three thresholds (0.3, 0.6, 0.8),
not two. -/
theorem plasma_two_threshold_cex :
    ¬ ∃ t1 t2 : ℚ, ∀ c1 c2 : ℚ,
        ((t1 < c1) ↔ (t1 < c2)) → ((t2 < c1) ↔ (t2 < c2)) →
        plasmaMaxValue c1 = plasmaMaxValue c2 := by
  rintro ⟨t1, t2, h⟩
  have v0 : plasmaMaxValue 0 = 4 := by norm_num [plasmaMaxValue]
  have v1 : plasmaMaxValue (1/2) = 5 := by norm_num [plasmaMaxValue]
  have v2 : plasmaMaxValue (7/10) = 28/5 := by norm_num [plasmaMaxValue]
  have v3 : plasmaMaxValue (9/10) = 6 := by norm_num [plasmaMaxValue]
  have key := twoStepChain (decide (t1 < 0)) (decide (t1 < 1/2))
    (decide (t1 < 7/10)) (decide (t1 < 9/10)) (decide (t2 < 0))
    (decide (t2 < 1/2)) (decide (t2 < 7/10)) (decide (t2 < 9/10))
    (fun hd => decide_eq_true (lt_of_lt_of_le (of_decide_eq_true hd)
      (by norm_num)))
    (fun hd => decide_eq_true (lt_of_lt_of_le (of_decide_eq_true hd)
      (by norm_num)))
    (fun hd => decide_eq_true (lt_of_lt_of_le (of_decide_eq_true hd)
      (by norm_num)))
    (fun hd => decide_eq_true (lt_of_lt_of_le (of_decide_eq_true hd)
      (by norm_num)))
    (fun hd => decide_eq_true (lt_of_lt_of_le (of_decide_eq_true hd)
      (by norm_num)))
    (fun hd => decide_eq_true (lt_of_lt_of_le (of_decide_eq_true hd)
      (by norm_num)))
  rcases key with ⟨hx, hy⟩ | ⟨hx, hy⟩ | ⟨hx, hy⟩
  · have heq := h 0 (1/2) (decide_eq_decide.mp hx) (decide_eq_decide.mp hy)
    rw [v0, v1] at heq
    norm_num at heq
  · have heq := h (1/2) (7/10) (decide_eq_decide.mp hx) (decide_eq_decide.mp hy)
    rw [v1, v2] at heq
    norm_num at heq
  · have heq := h (7/10) (9/10) (decide_eq_decide.mp hx) (decide_eq_decide.mp hy)
    rw [v2, v3] at heq
    norm_num at heq

/-- C6 (amended): the per-pixel plasma value depends on the complexity
parameter only through the three thresholds 0.3, 0.6 and 0.8 (each adding
further sine terms), and the sum is renormalised into `[0, 1]` as
`clamp((sum + maxValue) * (1 / (maxValue * 2)), 0, 1)` with the pre-computed
amplitude bound `plasmaMaxValue`. -/
theorem plasma_complexity_amended (M : JsMath) (xFreq yFreq time nx ny c1 c2 : ℚ)
    (h3 : (0.3 : ℚ) < c1 ↔ (0.3 : ℚ) < c2)
    (h6 : (0.6 : ℚ) < c1 ↔ (0.6 : ℚ) < c2)
    (h8 : (0.8 : ℚ) < c1 ↔ (0.8 : ℚ) < c2) :
    plasmaNormalized M xFreq yFreq c1 time nx ny
        = plasmaNormalized M xFreq yFreq c2 time nx ny
    ∧ 0 ≤ plasmaNormalized M xFreq yFreq c1 time nx ny
    ∧ plasmaNormalized M xFreq yFreq c1 time nx ny ≤ 1
    ∧ plasmaNormalized M xFreq yFreq c1 time nx ny
        = clamp ((plasmaSum M xFreq yFreq c1 time nx ny + plasmaMaxValue c1)
            * (1 / (plasmaMaxValue c1 * 2))) 0 1 := by
  refine ⟨?_, ?_, ?_, rfl⟩
  · have e3 : ((0.3 : ℚ) < c1) = ((0.3 : ℚ) < c2) := propext h3
    have e6 : ((0.6 : ℚ) < c1) = ((0.6 : ℚ) < c2) := propext h6
    have e8 : ((0.8 : ℚ) < c1) = ((0.8 : ℚ) < c2) := propext h8
    simp only [plasmaNormalized, plasmaSum, plasmaMaxValue, gt_iff_lt,
      e3, e6, e8]
  · rw [plasmaNormalized, clamp]
    exact le_min (le_max_right _ _) zero_le_one
  · rw [plasmaNormalized, clamp]
    exact min_le_right _ _

/-- Witness for `plasma_complexity_amended` at concrete parameters. -/
theorem plasma_complexity_amended_witness :
    plasmaNormalized trivMath 8 6 (1/2) 0 0 0
        = plasmaNormalized trivMath 8 6 (1/2) 0 0 0
    ∧ 0 ≤ plasmaNormalized trivMath 8 6 (1/2) 0 0 0 := by
  have h := plasma_complexity_amended trivMath 8 6 0 0 0 (1/2) (1/2)
    Iff.rfl Iff.rfl Iff.rfl
  exact ⟨h.1, h.2.1⟩

end Copperplasma
